import Mathlib

/-!
Verification of the photo-face-finder core (indexer.py / searcher.py).

The Python source is shallowly embedded: pure helpers become Lean
functions, the SQLite `faces` table becomes a list of `FaceRecord`s, the
per-file delete-then-insert transaction becomes one pure store update
(`applyStep`, applied at the commit point; a rollback leaves the store
unchanged), and the status queue becomes a list of `Msg` events.
External effects (filesystem stat, image loading, the face_recognition
library, SQLite connectivity) are parameters of the embedded functions:
the control flow acting on their outcomes is translated line by line
from the source.

Machine floats (`last_modified` timestamps, tolerances, distances) are
modelled as rationals: only order comparisons on them occur in the
translated code.  Stored 64-bit float embedding values are modelled by
their 64-bit patterns (naturals below 2^64), which is faithful for the
byte-level serialisation round trip and keeps the distance function an
abstract parameter, exactly as the spec leaves the metric to the
external Embedding Provider.
-/

/-- Status-channel events (`status_queue.put` payloads).  String-prefixed
messages in the source map to constructors: `INFO:` to `info`, `WARN:` to
`warn`, `ERROR:`/`FATAL ERROR` to `error`, unprefixed text to `note`,
`PROGRESS:pct:name` to `progress`, `RESULT:path` to `result`, and the
terminal signals `DONE`/`ABORTED` to `done`/`aborted`. -/
inductive Msg : Type where
  | info : Msg
  | warn : Msg
  | error : Msg
  | note : Msg
  | progress : ℚ → String → Msg
  | result : String → Msg
  | done : Msg
  | aborted : Msg
deriving DecidableEq, Repr

/-- `DONE` and `ABORTED` are the only terminal signals. -/
def isTerminal : Msg → Bool
  | Msg.done => true
  | Msg.aborted => true
  | _ => false

/-- Number of terminal events in a status stream. -/
def terminalCount (ms : List Msg) : ℕ :=
  ms.countP isTerminal

/-! ## Blob serialisation (indexer.py `np_array_to_blob`,
searcher.py `blob_to_np_array`)

A numpy `float64` array's `tobytes()` lays out each element as 8
native-endian (little-endian on the supported platforms) bytes of its
IEEE-754 bit pattern; `np.frombuffer(blob, dtype=np.float64)` inverts
this, failing when the byte length is not a multiple of 8.  Elements are
modelled by their 64-bit patterns. -/

/-- The `w` little-endian bytes of the value `v`. -/
def natToBytesLE : ℕ → ℕ → List ℕ
  | 0, _ => []
  | w + 1, v => v % 256 :: natToBytesLE w (v / 256)

/-- Read back a little-endian byte list as a value. -/
def bytesToNatLE : List ℕ → ℕ
  | [] => 0
  | b :: rest => b + 256 * bytesToNatLE rest

/-- `np_array_to_blob(arr) = arr.tobytes()`: each 64-bit element becomes
8 little-endian bytes, concatenated in order. -/
def np_array_to_blob (arr : List ℕ) : List ℕ :=
  (arr.map (natToBytesLE 8)).flatten

/-- Split a byte list into 8-byte groups and decode each. -/
def decodeChunks : List ℕ → List ℕ
  | b0 :: b1 :: b2 :: b3 :: b4 :: b5 :: b6 :: b7 :: rest =>
    bytesToNatLE [b0, b1, b2, b3, b4, b5, b6, b7] :: decodeChunks rest
  | _ => []

/-- `blob_to_np_array(blob) = np.frombuffer(blob, dtype=np.float64)`:
succeeds only when the length is a whole number of 8-byte elements. -/
def blob_to_np_array (blob : List ℕ) : Option (List ℕ) :=
  if blob.length % 8 = 0 then some (decodeChunks blob) else none

/-! ## The Index Store (the SQLite `faces` table) -/

/-- One row of the `faces` table (the auto-increment id is immaterial to
every claim and is omitted). -/
structure FaceRecord : Type where
  file_path : String
  last_modified : ℚ
  face_encoding : List ℕ
  face_location_css : String
deriving DecidableEq, Repr

/-- The `faces` table contents. -/
abbrev Store : Type := List FaceRecord

/-- One element of a worker's per-face result tuple
`(last_modified, encoding_blob, location_str)`. -/
structure FaceData : Type where
  last_modified : ℚ
  encoding_blob : List ℕ
  location_str : String
deriving DecidableEq, Repr

/-- The row inserted for one face of file `p`. -/
def mkRecord (p : String) (d : FaceData) : FaceRecord :=
  ⟨p, d.last_modified, d.encoding_blob, d.location_str⟩

/-- The rows a worker result contributes for path `p`: one per face on
`some faces`, none on `none`. -/
def newRecords (p : String) : Option (List FaceData) → List FaceRecord
  | some faces => faces.map (mkRecord p)
  | none => []

/-- All rows of the store whose `file_path` equals `p`
(`SELECT ... WHERE file_path = ?`). -/
def recordsFor (p : String) (s : Store) : List FaceRecord :=
  s.filter (fun r => decide (r.file_path = p))

/-- Applying one worker result inside the orchestrator's loop
(indexer.py, the per-result `try` block): the `DELETE` of all rows for
the path and the `INSERT` of each returned face row form one SQLite
transaction, committed together; a `sqlite3.Error` anywhere in the block
(`dbError = true`) triggers the `rollback`, leaving the store as it was.
The store value is the table as visible at commit points. -/
def applyStep (s : Store) (p : String) (res : Option (List FaceData))
    (dbError : Bool) : Store :=
  if dbError then s
  else s.filter (fun r => !decide (r.file_path = p)) ++ newRecords p res

/-- `get_indexed_files`:
`SELECT file_path, MAX(last_modified) FROM faces GROUP BY file_path`,
read as a partial map from path to latest stored timestamp. -/
def snapshotOf (s : Store) (p : String) : Option ℚ :=
  match (recordsFor p s).map FaceRecord.last_modified with
  | [] => none
  | x :: xs => some (xs.foldl max x)

/-! ## Incremental change detection (indexer.py lines 244-256)

`stat p = none` models a failing `image_path.stat()` (the
`FileNotFoundError` / generic `except` arms); `snap` is the snapshot
dictionary.  The triple is `(files_to_process, skipped_count,
check_errors)`. -/

/-- The non-forced filter loop of `run_indexing`. -/
def detectFilter (snap stat : String → Option ℚ) :
    List String → List String × ℕ × ℕ
  | [] => ([], 0, 0)
  | p :: rest =>
    let acc := detectFilter snap stat rest
    match stat p with
    | none => (acc.1, acc.2.1, acc.2.2 + 1)
    | some m =>
      match snap p with
      | none => (p :: acc.1, acc.2.1, acc.2.2)
      | some prev =>
        if prev < m then (p :: acc.1, acc.2.1, acc.2.2)
        else (acc.1, acc.2.1 + 1, acc.2.2)

/-- The decision the filter loop takes for one candidate: include iff
the stat succeeds and the path is new or strictly newer than the
snapshot value. -/
def includeDecision (snap stat : String → Option ℚ) (p : String) : Bool :=
  match stat p with
  | none => false
  | some m =>
    match snap p with
    | none => true
    | some prev => decide (prev < m)

/-- One candidate is skipped iff its stat succeeds and the snapshot
value is at least the current modification time. -/
def skipDecision (snap stat : String → Option ℚ) (p : String) : Bool :=
  match stat p with
  | none => false
  | some m =>
    match snap p with
    | none => false
    | some prev => decide (m ≤ prev)

/-! ## The worker (`process_image`)

The filesystem and the face_recognition calls are the worker's only
effects; their outcomes for one invocation are collected in
`ImageEnv`.  `statResult = none` models a raised `FileNotFoundError`
(or `OSError`) from `image_path.stat()`; `loadOk = false` models
`load_image_file` raising (`UnidentifiedImageError` or any other
exception); `locations` and `encodings` are what `face_locations` and
`face_encodings` return. -/

/-- Outcomes of the external calls made by one `process_image` run. -/
structure ImageEnv : Type where
  statResult : Option ℚ
  loadOk : Bool
  locations : List (ℕ × ℕ × ℕ × ℕ)
  encodings : List (List ℕ)
deriving Repr

/-- `f"{t},{r},{b},{l}"` for a bounding box. -/
def locationString (loc : ℕ × ℕ × ℕ × ℕ) : String :=
  toString loc.1 ++ "," ++ toString loc.2.1 ++ "," ++ toString loc.2.2.1
    ++ "," ++ toString loc.2.2.2

/-- `process_image`: stat, load, detect, encode, and zip encodings with
locations; every exception arm and the no-faces / no-encodings arms
return `(path, None)`. -/
def process_image (p : String) (env : ImageEnv) :
    String × Option (List FaceData) :=
  match env.statResult with
  | none => (p, none)
  | some last_modified =>
    if env.loadOk = false then (p, none)
    else if env.locations = [] then (p, none)
    else if env.encodings = [] then (p, none)
    else
      (p, some ((env.encodings.zip env.locations).map (fun el =>
        ⟨last_modified, np_array_to_blob el.1, locationString el.2⟩)))

/-! ## The indexing orchestrator (`run_indexing`)

External outcomes are parameters: `setupOk` is whether
`setup_database` succeeds (on failure it calls `sys.exit(1)`, which the
orchestrator's `except Exception` does NOT catch — the run stops with no
terminal event), `connOk` whether the `sqlite3.connect` of the
processing phase succeeds, `poolOk` whether `multiprocessing.Pool`
starts (its failure propagates to the outermost handler: `FATAL` +
`ABORTED`), `poolExecOk` whether the result iteration itself survives
(its failure is caught at the pool level, reported as `ERROR`, and the
run still reaches the summary and `DONE`).  `w p` is the data component
of the worker result for path `p` and `dbErr p` whether that path's
database transaction raises `sqlite3.Error`.  `imap_unordered` yields
results in completion order; the model consumes them in list order,
which `applyStep`'s per-path independence makes immaterial to the final
store. -/

/-- Result accumulator of the orchestrator's result loop. -/
structure LoopResult : Type where
  store : Store
  msgs : List Msg
  storedFiles : ℕ
  facesStored : ℕ
  procErrors : ℕ
  dbErrors : ℕ

/-- The per-result loop of `run_indexing` (progress report, then the
delete/insert transaction, with the counter updates of the source). -/
def indexLoop (w : String → Option (List FaceData)) (dbErr : String → Bool)
    (total : ℕ) : ℕ → Store → List String → LoopResult
  | _, s, [] => ⟨s, [], 0, 0, 0, 0⟩
  | i, s, p :: rest =>
    let pm := Msg.progress ((i + 1 : ℚ) / total * 100) p
    if dbErr p then
      let acc := indexLoop w dbErr total (i + 1) s rest
      ⟨acc.store, pm :: Msg.error :: acc.msgs, acc.storedFiles,
        acc.facesStored, acc.procErrors, acc.dbErrors + 1⟩
    else
      match w p with
      | some faces =>
        let acc := indexLoop w dbErr total (i + 1)
          (applyStep s p (some faces) false) rest
        ⟨acc.store, pm :: acc.msgs, acc.storedFiles + 1,
          acc.facesStored + faces.length, acc.procErrors, acc.dbErrors⟩
      | none =>
        let acc := indexLoop w dbErr total (i + 1)
          (applyStep s p none false) rest
        ⟨acc.store, pm :: acc.msgs, acc.storedFiles,
          acc.facesStored, acc.procErrors + 1, acc.dbErrors⟩

/-- Observable outcome of one `run_indexing` call. -/
structure RunResult : Type where
  msgs : List Msg
  store : Store
  toProcess : List String
  skipped : ℕ
  checkErrors : ℕ

/-- The summary block (lines `--- Indexing Summary ---` through the
nine count/time reports). -/
def summaryMsgs : List Msg :=
  Msg.note :: List.replicate 9 Msg.info

/-- `run_indexing` after file discovery and filtering: the branches on
an empty processing set, on connection failure, on pool-start failure,
on pool-execution failure, and the normal result loop plus summary. -/
def runBody (connOk poolOk poolExecOk : Bool) (s0 : Store)
    (w : String → Option (List FaceData)) (dbErr : String → Bool)
    (m2 : List Msg) (tri : List String × ℕ × ℕ) : RunResult :=
  if tri.1 = [] then
    ⟨m2 ++ [Msg.info, Msg.info, Msg.done], s0, tri.1, tri.2.1, tri.2.2⟩
  else if connOk = false then
    ⟨m2 ++ [Msg.error, Msg.aborted], s0, tri.1, tri.2.1, tri.2.2⟩
  else if poolOk = false then
    ⟨m2 ++ [Msg.info, Msg.error, Msg.aborted], s0, tri.1, tri.2.1, tri.2.2⟩
  else if poolExecOk = false then
    ⟨m2 ++ [Msg.info, Msg.error] ++ summaryMsgs ++ [Msg.done],
      s0, tri.1, tri.2.1, tri.2.2⟩
  else
    let lr := indexLoop w dbErr tri.1.length 0 s0 tri.1
    ⟨m2 ++ [Msg.info] ++ lr.msgs ++ [Msg.info] ++ summaryMsgs ++ [Msg.done],
      lr.store, tri.1, tri.2.1, tri.2.2⟩

/-- The opening reports of `run_indexing` (database, directories,
workers, model, and the force notice). -/
def initMsgs (force : Bool) : List Msg :=
  [Msg.info, Msg.info, Msg.info, Msg.info]
    ++ (if force then [Msg.info] else [])

/-- Everything reported between database setup and the processing
phase: the previously-indexed count, then either the force notice or
the filter loop's reports (`ce` is the check-error count: one
warning/error per failing stat, and a closing warning when any
occurred). -/
def preMsgs (force : Bool) (ce : ℕ) : List Msg :=
  initMsgs force ++ [Msg.info]
    ++ (if force then [Msg.info]
      else [Msg.info, Msg.info] ++ List.replicate ce Msg.warn
        ++ [Msg.info, Msg.info]
        ++ (if 0 < ce then [Msg.warn] else []))

/-- `run_indexing`: the opening reports, database setup (failure exits
with no terminal event), snapshot read, discovery, the force/non-force
filter, and `runBody`.  `candidates` is the list yielded by
`find_image_files`. -/
def run_indexing (setupOk connOk poolOk poolExecOk : Bool) (s0 : Store)
    (candidates : List String) (stat : String → Option ℚ) (force : Bool)
    (w : String → Option (List FaceData)) (dbErr : String → Bool) :
    RunResult :=
  if setupOk = false then ⟨initMsgs force, s0, [], 0, 0⟩
  else
    let tri := if force then (candidates, 0, 0)
      else detectFilter (snapshotOf s0) stat candidates
    runBody connOk poolOk poolExecOk s0 w dbErr (preMsgs force tri.2.2) tri

/-! ## The matching engine (searcher.py)

`dist` is the Embedding Provider's numeric distance between two
embeddings (the metric itself is external to this core); compare_faces
marks a stored embedding as matching iff its distance to the reference
embedding is at most the tolerance.  Paths are Python strings, compared
lexicographically by code point: `pathLe` compares the underlying
character lists. -/

/-- Python string order: lexicographic on code points. -/
def pathLe (a b : String) : Prop :=
  a.data ≤ b.data

instance : DecidableRel pathLe :=
  fun a b => inferInstanceAs (Decidable (a.data ≤ b.data))

instance : IsTotal String pathLe :=
  ⟨fun a b => le_total a.data b.data⟩

instance : IsTrans String pathLe :=
  ⟨fun _ _ _ hab hbc => le_trans hab hbc⟩

/-- Handling of one fetched row in `load_all_encodings_from_db`: decode
the blob (`none` models the decode raising) and keep the pair only when
the decoded shape is exactly 128; otherwise emit one warning and drop
the row. -/
def loadRow (r : String × List ℕ) : List Msg × Option (String × List ℕ) :=
  match blob_to_np_array r.2 with
  | none => ([Msg.warn], none)
  | some e =>
    if e.length = 128 then ([], some (r.1, e))
    else ([Msg.warn], none)

/-- `load_all_encodings_from_db`: missing database file (two messages,
then failure), database read error, empty table (warning, empty result),
otherwise the per-row loop; if rows were read but none was valid the
load fails, else it reports the loaded count. -/
def load_all_encodings_from_db (dbExists dbReadOk : Bool)
    (rows : List (String × List ℕ)) :
    List Msg × Option (List (String × List ℕ)) :=
  if dbExists = false then ([Msg.error, Msg.note], none)
  else if dbReadOk = false then ([Msg.error], none)
  else if rows = [] then ([Msg.warn], some [])
  else
    let rowMsgs := (rows.map (fun r => (loadRow r).1)).flatten
    let valid := rows.filterMap (fun r => (loadRow r).2)
    if valid = [] then (rowMsgs ++ [Msg.error], none)
    else (rowMsgs ++ [Msg.info], some valid)

/-- `run_search`: reference-image existence check, the three opening
reports, the database load, the empty-index early success, reference
image processing (`refLoadOk` models the load/detect/encode `try`;
`refEncs` is `face_encodings` of the reference image), face comparison
(`compare_faces`: distance at most `tolerance`), set-based
deduplication, lexicographic sort, one `RESULT` event per match, and
the terminal event.  Returns the event stream and the returned value
(`none` for the fatal arms). -/
def run_search (refExists dbExists dbReadOk : Bool)
    (rows : List (String × List ℕ)) (refLoadOk : Bool)
    (refEncs : List (List ℕ)) (dist : List ℕ → List ℕ → ℚ) (tol : ℚ) :
    List Msg × Option (List String) :=
  if refExists = false then ([Msg.error, Msg.aborted], none)
  else
    let infos := [Msg.info, Msg.info, Msg.info]
    let load := load_all_encodings_from_db dbExists dbReadOk rows
    match load.2 with
    | none => (infos ++ load.1 ++ [Msg.aborted], none)
    | some pairs =>
      if pairs = [] then
        (infos ++ load.1 ++ [Msg.warn, Msg.done], some [])
      else if refLoadOk = false then
        (infos ++ load.1 ++ [Msg.info, Msg.error, Msg.aborted], none)
      else if refEncs = [] then
        (infos ++ load.1 ++ [Msg.info, Msg.error, Msg.aborted], none)
      else
        let target := refEncs.headI
        let refMsg := if refEncs.length = 1 then Msg.info else Msg.warn
        let matching :=
          (pairs.filter (fun pr => decide (dist pr.2 target ≤ tol))).map
            Prod.fst
        let sortedPaths := List.insertionSort pathLe matching.dedup
        let resMsgs := if sortedPaths = [] then [Msg.info]
          else Msg.info :: sortedPaths.map Msg.result
        (infos ++ load.1
          ++ [Msg.info, refMsg, Msg.info, Msg.info]
          ++ resMsgs ++ [Msg.done], some sortedPaths)

/-! ## Concrete fixtures used by witnesses and counterexamples -/

/-- The two-row store of the C7 witness: one invalid 8-byte blob, one
valid 1024-byte blob. -/
def c7Rows : List (String × List ℕ) :=
  [("/photos/bad.jpg", List.replicate 8 0),
   ("/photos/good.jpg", List.replicate 1024 0)]

/-- The three-row store of the C3 witness: two rows share a path. -/
def c3Rows : List (String × List ℕ) :=
  [("/photos/b.jpg", List.replicate 1024 0),
   ("/photos/a.jpg", List.replicate 1024 0),
   ("/photos/a.jpg", List.replicate 1024 0)]

/-- C5 scenario filesystem: one image file, fixed modification time. -/
def c5Stat : String → Option ℚ :=
  fun p => if p = "/photos/a.jpg" then some 1 else none

/-- C5 counterexample worker: the image loads fine but contains no
faces, so `process_image` hands back `none`. -/
def c5NoFaceWorker : String → Option (List FaceData) :=
  fun _ => none

/-- First indexing run of the C5 counterexample, from an empty store. -/
def c5Run1 : RunResult :=
  run_indexing true true true true [] ["/photos/a.jpg"] c5Stat false
    c5NoFaceWorker (fun _ => false)

/-- Second indexing run of the C5 counterexample, over the unchanged
filesystem and the store the first run left behind. -/
def c5Run2 : RunResult :=
  run_indexing true true true true c5Run1.store ["/photos/a.jpg"] c5Stat
    false c5NoFaceWorker (fun _ => false)

/-- C5 witness worker: one face per image, timestamp matching the
stat. -/
def c5GoodWorker : String → Option (List FaceData) :=
  fun p => if p = "/photos/a.jpg"
    then some [⟨1, List.replicate 1024 0, "0,0,0,0"⟩] else none

/-! ## Store lemmas -/

/-- Rows built for path `p` all carry `p` as their path. -/
lemma recordsFor_newRecords (p : String) (res : Option (List FaceData)) :
    recordsFor p (newRecords p res) = newRecords p res := by
  cases res with
  | none => rfl
  | some faces =>
    simp [recordsFor, newRecords, List.filter_eq_self, mkRecord]

/-- The rows of the applied path after one `applyStep`: the fresh rows
on commit, the untouched old rows on rollback. -/
lemma recordsFor_applyStep_self (s : Store) (p : String)
    (res : Option (List FaceData)) (e : Bool) :
    recordsFor p (applyStep s p res e)
      = if e then recordsFor p s else newRecords p res := by
  cases e with
  | true => simp [applyStep]
  | false =>
    have hnil : List.filter (fun r => decide (r.file_path = p))
        (List.filter (fun r => !decide (r.file_path = p)) s) = [] := by
      rw [List.filter_filter]
      simp
    simp only [applyStep, Bool.false_eq_true, if_false, recordsFor,
      List.filter_append]
    rw [hnil, List.nil_append]
    exact recordsFor_newRecords p res

/-- One `applyStep` for path `p` leaves every other path's rows
untouched. -/
lemma recordsFor_applyStep_ne (s : Store) (p q : String)
    (res : Option (List FaceData)) (e : Bool) (h : q ≠ p) :
    recordsFor q (applyStep s p res e) = recordsFor q s := by
  cases e with
  | true => simp [applyStep]
  | false =>
    have hnew : List.filter (fun r => decide (r.file_path = q))
        (newRecords p res) = [] := by
      cases res with
      | none => rfl
      | some faces =>
        simp only [newRecords, List.filter_eq_nil_iff]
        intro r hr
        rcases List.mem_map.mp hr with ⟨d, _, rfl⟩
        simp [mkRecord, h.symm]
    simp only [applyStep, Bool.false_eq_true, if_false, recordsFor,
      List.filter_append]
    rw [hnew, List.append_nil, List.filter_filter]
    apply List.filter_congr
    intro r _
    by_cases hq : r.file_path = q
    · have hnp : ¬(r.file_path = p) := by rw [hq]; exact h
      simp [hq, hnp, h]
    · simp [hq]

/-- The store produced by consuming worker results in order (the pure
store component of `indexLoop`). -/
def applyAll (w : String → Option (List FaceData)) (dbErr : String → Bool)
    (s : Store) : List String → Store
  | [] => s
  | p :: rest => applyAll w dbErr (applyStep s p (w p) (dbErr p)) rest

/-- `indexLoop` updates the store exactly as `applyAll` does. -/
lemma indexLoop_store (w : String → Option (List FaceData))
    (dbErr : String → Bool) (total : ℕ) :
    ∀ (l : List String) (i : ℕ) (s : Store),
      (indexLoop w dbErr total i s l).store = applyAll w dbErr s l := by
  intro l
  induction l with
  | nil => intro i s; rfl
  | cons p rest ih =>
    intro i s
    simp only [applyAll]
    by_cases hdb : dbErr p = true
    · simp only [indexLoop, hdb, if_true]
      rw [ih]
      have hstep : applyStep s p (w p) true = s := by simp [applyStep]
      rw [hstep]
    · have hdb' : dbErr p = false := by
        cases h : dbErr p
        · rfl
        · exact absurd h hdb
      cases hw : w p with
      | some faces =>
        simp only [indexLoop, hdb', Bool.false_eq_true, if_false, hw]
        rw [ih]
      | none =>
        simp only [indexLoop, hdb', Bool.false_eq_true, if_false, hw]
        rw [ih]

/-- Paths never processed keep their rows across a whole result loop. -/
lemma recordsFor_applyAll_notMem (w : String → Option (List FaceData))
    (dbErr : String → Bool) (p : String) :
    ∀ (l : List String) (s : Store), p ∉ l →
      recordsFor p (applyAll w dbErr s l) = recordsFor p s := by
  intro l
  induction l with
  | nil => intro s _; rfl
  | cons q rest ih =>
    intro s hp
    have hq : p ≠ q := fun h => hp (h ▸ List.mem_cons_self q rest)
    have hrest : p ∉ rest := fun h => hp (List.mem_cons_of_mem q h)
    simp only [applyAll]
    rw [ih _ hrest, recordsFor_applyStep_ne _ _ _ _ _ hq]

/-- A processed path's rows after a whole result loop are exactly its
worker result's rows (the last write wins; the worker function is
deterministic per path). -/
lemma recordsFor_applyAll_mem (w : String → Option (List FaceData))
    (dbErr : String → Bool) (p : String) (hdb : dbErr p = false) :
    ∀ (l : List String) (s : Store), p ∈ l →
      recordsFor p (applyAll w dbErr s l) = newRecords p (w p) := by
  intro l
  induction l with
  | nil => intro s hp; cases hp
  | cons q rest ih =>
    intro s hp
    by_cases hr : p ∈ rest
    · exact ih _ hr
    · have hpq : p = q := by
        rcases List.mem_cons.mp hp with h | h
        · exact h
        · exact absurd h hr
      subst hpq
      simp only [applyAll]
      rw [recordsFor_applyAll_notMem _ _ _ _ _ hr, hdb,
        recordsFor_applyStep_self]
      simp

/-- The snapshot value at `p` only depends on the rows stored for `p`. -/
lemma snapshotOf_congr (s s' : Store) (p : String)
    (h : recordsFor p s = recordsFor p s') :
    snapshotOf s p = snapshotOf s' p := by
  unfold snapshotOf
  rw [h]

/-- A path whose stored rows all carry timestamp `m` (and exist) has
snapshot value `m`. -/
lemma snapshotOf_eq_of_uniform (s : Store) (p : String) (m : ℚ)
    (hne : recordsFor p s ≠ [])
    (hall : ∀ r ∈ recordsFor p s, r.last_modified = m) :
    snapshotOf s p = some m := by
  unfold snapshotOf
  rcases hrec : (recordsFor p s).map FaceRecord.last_modified with _ | ⟨x, xs⟩
  · exact absurd (List.map_eq_nil_iff.mp hrec) hne
  · have hx : x = m := by
      have : x ∈ (recordsFor p s).map FaceRecord.last_modified := by
        rw [hrec]; exact List.mem_cons_self x xs
      rcases List.mem_map.mp this with ⟨r, hr, hrx⟩
      rw [← hrx]; exact hall r hr
    have hxs : ∀ y ∈ xs, y = m := by
      intro y hy
      have : y ∈ (recordsFor p s).map FaceRecord.last_modified := by
        rw [hrec]; exact List.mem_cons_of_mem x hy
      rcases List.mem_map.mp this with ⟨r, hr, hry⟩
      rw [← hry]; exact hall r hr
    subst hx
    have hfold : ∀ ys : List ℚ, (∀ y ∈ ys, y = x) → ys.foldl max x = x := by
      intro ys
      induction ys with
      | nil => intro _; rfl
      | cons y ys ihy =>
        intro hall2
        have hy : y = x := hall2 y (List.mem_cons_self y ys)
        simp only [List.foldl_cons, hy, max_self]
        exact ihy (fun z hz => hall2 z (List.mem_cons_of_mem y hz))
    exact congrArg some (hfold xs hxs)

/-! ## Change-detector lemmas -/

/-- The filter loop computes: the candidates passing the include test,
the count of skipped candidates, and the count of failing stats. -/
lemma detectFilter_eq (snap stat : String → Option ℚ) (l : List String) :
    detectFilter snap stat l
      = (l.filter (includeDecision snap stat),
         l.countP (skipDecision snap stat),
         l.countP (fun p => (stat p).isNone)) := by
  induction l with
  | nil => rfl
  | cons p rest ih =>
    simp only [detectFilter, ih]
    rcases hst : stat p with _ | m
    · simp [includeDecision, skipDecision, hst, List.filter_cons,
        List.countP_cons]
    · rcases hsn : snap p with _ | prev
      · simp [includeDecision, skipDecision, hst, hsn, List.filter_cons,
          List.countP_cons]
      · by_cases hlt : prev < m
        · simp [includeDecision, skipDecision, hst, hsn, hlt,
            List.filter_cons, List.countP_cons, not_le.mpr hlt]
        · simp [includeDecision, skipDecision, hst, hsn, hlt,
            List.filter_cons, List.countP_cons, not_lt.mp hlt]

/-- Unfolding of the include decision. -/
lemma includeDecision_eq_true (snap stat : String → Option ℚ) (p : String) :
    includeDecision snap stat p = true
      ↔ ∃ m, stat p = some m
          ∧ (snap p = none ∨ ∃ prev, snap p = some prev ∧ prev < m) := by
  unfold includeDecision
  rcases hst : stat p with _ | m
  · simp
  · rcases hsn : snap p with _ | prev
    · simp
    · by_cases hlt : prev < m
      · simp [hlt]
      · simp [hlt]

/-! ## Blob round-trip lemmas -/

lemma natToBytesLE_length (w v : ℕ) : (natToBytesLE w v).length = w := by
  induction w generalizing v with
  | zero => rfl
  | succ w ih => simp [natToBytesLE, ih]

lemma bytesToNatLE_natToBytesLE (w v : ℕ) :
    bytesToNatLE (natToBytesLE w v) = v % 256 ^ w := by
  induction w generalizing v with
  | zero => simp [natToBytesLE, bytesToNatLE, Nat.mod_one]
  | succ w ih =>
    rw [natToBytesLE, bytesToNatLE, ih, pow_succ']
    rw [Nat.mod_mul]

lemma np_array_to_blob_length (arr : List ℕ) :
    (np_array_to_blob arr).length = 8 * arr.length := by
  induction arr with
  | nil => rfl
  | cons v rest ih =>
    show (natToBytesLE 8 v ++ np_array_to_blob rest).length = _
    simp [natToBytesLE_length, ih, List.length_cons]
    ring

/-- Splitting off one encoded element from the front of a blob. -/
lemma decodeChunks_enc8 (v : ℕ) (rest : List ℕ) :
    decodeChunks (natToBytesLE 8 v ++ rest)
      = bytesToNatLE (natToBytesLE 8 v) :: decodeChunks rest := rfl

/-- Byte-level round trip, elementwise modulo 2^64. -/
lemma decodeChunks_np_array_to_blob (arr : List ℕ) :
    decodeChunks (np_array_to_blob arr) = arr.map (· % 2 ^ 64) := by
  induction arr with
  | nil => rfl
  | cons v rest ih =>
    show decodeChunks (natToBytesLE 8 v ++ np_array_to_blob rest) = _
    rw [decodeChunks_enc8, bytesToNatLE_natToBytesLE, ih]
    norm_num

/-! ## Terminal-event counting -/

lemma terminalCount_append (a b : List Msg) :
    terminalCount (a ++ b) = terminalCount a + terminalCount b :=
  List.countP_append _ _ _

/-- The result loop reports only progress and per-file errors: no
terminal events. -/
lemma terminalCount_indexLoop (w : String → Option (List FaceData))
    (dbErr : String → Bool) (total : ℕ) :
    ∀ (l : List String) (i : ℕ) (s : Store),
      terminalCount (indexLoop w dbErr total i s l).msgs = 0 := by
  intro l
  induction l with
  | nil => intro i s; rfl
  | cons p rest ih =>
    intro i s
    by_cases hdb : dbErr p = true
    · simp only [indexLoop, hdb, if_true]
      simp only [terminalCount, List.countP_cons, isTerminal]
      rw [← terminalCount, ih]
      simp
    · have hdb' : dbErr p = false := by
        cases h : dbErr p
        · rfl
        · exact absurd h hdb
      cases hw : w p with
      | some faces =>
        simp only [indexLoop, hdb', Bool.false_eq_true, if_false, hw]
        simp only [terminalCount, List.countP_cons, isTerminal]
        rw [← terminalCount, ih]
        simp
      | none =>
        simp only [indexLoop, hdb', Bool.false_eq_true, if_false, hw]
        simp only [terminalCount, List.countP_cons, isTerminal]
        rw [← terminalCount, ih]
        simp

lemma terminalCount_summaryMsgs : terminalCount summaryMsgs = 0 := by
  simp [summaryMsgs, terminalCount, List.countP_cons,
    List.countP_replicate, isTerminal]

lemma terminalCount_initMsgs (force : Bool) :
    terminalCount (initMsgs force) = 0 := by
  cases force <;> rfl

lemma terminalCount_preMsgs (force : Bool) (ce : ℕ) :
    terminalCount (preMsgs force ce) = 0 := by
  cases force with
  | true => rfl
  | false =>
    by_cases hce : 0 < ce
    · simp [preMsgs, initMsgs, terminalCount, terminalCount_append,
        List.countP_append, List.countP_cons, List.countP_replicate,
        isTerminal, hce]
    · simp [preMsgs, initMsgs, terminalCount, terminalCount_append,
        List.countP_append, List.countP_cons, List.countP_replicate,
        isTerminal, hce]

/-- Every branch after database setup ends with exactly one terminal
event. -/
lemma terminalCount_runBody (connOk poolOk poolExecOk : Bool) (s0 : Store)
    (w : String → Option (List FaceData)) (dbErr : String → Bool)
    (m2 : List Msg) (tri : List String × ℕ × ℕ)
    (hm2 : terminalCount m2 = 0) :
    terminalCount (runBody connOk poolOk poolExecOk s0 w dbErr m2 tri).msgs
      = 1 := by
  have hm2' : List.countP isTerminal m2 = 0 := hm2
  have hsum : List.countP isTerminal summaryMsgs = 0 :=
    terminalCount_summaryMsgs
  have hloop : List.countP isTerminal
      (indexLoop w dbErr tri.1.length 0 s0 tri.1).msgs = 0 :=
    terminalCount_indexLoop w dbErr tri.1.length tri.1 0 s0
  unfold runBody
  split_ifs <;>
    simp [terminalCount, List.countP_append, List.countP_cons, isTerminal,
      hm2', hsum, hloop]

/-! ## `runBody` field lemmas -/

lemma runBody_toProcess (connOk poolOk poolExecOk : Bool) (s0 : Store)
    (w : String → Option (List FaceData)) (dbErr : String → Bool)
    (m2 : List Msg) (tri : List String × ℕ × ℕ) :
    (runBody connOk poolOk poolExecOk s0 w dbErr m2 tri).toProcess
      = tri.1 := by
  unfold runBody
  split_ifs <;> rfl

lemma runBody_counts (connOk poolOk poolExecOk : Bool) (s0 : Store)
    (w : String → Option (List FaceData)) (dbErr : String → Bool)
    (m2 : List Msg) (tri : List String × ℕ × ℕ) :
    (runBody connOk poolOk poolExecOk s0 w dbErr m2 tri).skipped = tri.2.1
      ∧ (runBody connOk poolOk poolExecOk s0 w dbErr m2 tri).checkErrors
          = tri.2.2 := by
  unfold runBody
  split_ifs <;> exact ⟨rfl, rfl⟩

/-- With a working connection and pool, the final store is the fold of
all worker results over the initial store. -/
lemma runBody_store (s0 : Store) (w : String → Option (List FaceData))
    (dbErr : String → Bool) (m2 : List Msg) (tri : List String × ℕ × ℕ) :
    (runBody true true true s0 w dbErr m2 tri).store
      = if tri.1 = [] then s0 else applyAll w dbErr s0 tri.1 := by
  unfold runBody
  by_cases h : tri.1 = []
  · simp [h]
  · simp [h, indexLoop_store]

/-- After a successful database setup, `run_indexing` is `runBody` on
the filtered processing set. -/
lemma run_indexing_eq_runBody (connOk poolOk poolExecOk : Bool)
    (s0 : Store) (candidates : List String) (stat : String → Option ℚ)
    (w : String → Option (List FaceData)) (dbErr : String → Bool) :
    run_indexing true connOk poolOk poolExecOk s0 candidates stat false
        w dbErr
      = runBody connOk poolOk poolExecOk s0 w dbErr
          (preMsgs false (detectFilter (snapshotOf s0) stat candidates).2.2)
          (detectFilter (snapshotOf s0) stat candidates) := rfl

/-! ## Searcher lemmas -/

lemma decodeChunks_length (b : List ℕ) :
    (decodeChunks b).length = b.length / 8 := by
  induction b using decodeChunks.induct with
  | case1 b0 b1 b2 b3 b4 b5 b6 b7 rest ih =>
    simp only [decodeChunks, List.length_cons, ih]
    omega
  | case2 b h =>
    rcases b with _ | ⟨b0, _ | ⟨b1, _ | ⟨b2, _ | ⟨b3, _ | ⟨b4, _ |
      ⟨b5, _ | ⟨b6, _ | ⟨b7, rest⟩⟩⟩⟩⟩⟩⟩⟩
    · simp [decodeChunks]
    · simp [decodeChunks]
    · simp [decodeChunks]
    · simp [decodeChunks]
    · simp [decodeChunks]
    · simp [decodeChunks]
    · simp [decodeChunks]
    · simp [decodeChunks]
    · exact absurd rfl (h b0 b1 b2 b3 b4 b5 b6 b7 rest)

/-- A well-formed stored row (1024-byte blob) decodes silently to a
128-element embedding. -/
lemma loadRow_valid (r : String × List ℕ) (h : r.2.length = 1024) :
    loadRow r = ([], some (r.1, decodeChunks r.2)) := by
  have h8 : r.2.length % 8 = 0 := by rw [h]
  have hlen : (decodeChunks r.2).length = 128 := by
    rw [decodeChunks_length, h]
  unfold loadRow blob_to_np_array
  rw [if_pos h8]
  simp [hlen]

/-- Each row contributes either nothing or a single warning to the load
messages. -/
lemma loadRow_fst (r : String × List ℕ) :
    (loadRow r).1 = [] ∨ (loadRow r).1 = [Msg.warn] := by
  unfold loadRow
  rcases h : blob_to_np_array r.2 with _ | e
  · right; rfl
  · by_cases hl : e.length = 128
    · left; simp [hl]
    · right; simp [hl]

/-- A row is dropped exactly when it is warned about: the drop and the
warning coincide. -/
lemma loadRow_dropped_iff (r : String × List ℕ) :
    (loadRow r).2 = none ↔ (loadRow r).1 = [Msg.warn] := by
  unfold loadRow
  rcases h : blob_to_np_array r.2 with _ | e
  · simp
  · by_cases hl : e.length = 128
    · simp [hl]
    · simp [hl]

/-- A row is dropped exactly when its blob does not decode to a
128-element embedding. -/
lemma loadRow_dropped_iff_invalid (r : String × List ℕ) :
    (loadRow r).2 = none
      ↔ ¬∃ e, blob_to_np_array r.2 = some e ∧ e.length = 128 := by
  unfold loadRow
  rcases h : blob_to_np_array r.2 with _ | e
  · simp
  · by_cases hl : e.length = 128
    · simp [hl]
    · simp [hl]

lemma filterMap_all_some {α β : Type} (f : α → Option β) (g : α → β)
    (l : List α) (h : ∀ a ∈ l, f a = some (g a)) :
    l.filterMap f = l.map g := by
  induction l with
  | nil => rfl
  | cons a l ih =>
    rw [List.filterMap_cons, h a (List.mem_cons_self a l), List.map_cons,
      ih (fun b hb => h b (List.mem_cons_of_mem a hb))]

lemma flatten_all_nil {α : Type} (L : List (List α))
    (h : ∀ l ∈ L, l = []) : L.flatten = [] := by
  induction L with
  | nil => rfl
  | cons l L ih =>
    rw [List.flatten_cons, h l (List.mem_cons_self l L),
      ih (fun x hx => h x (List.mem_cons_of_mem l hx)), List.nil_append]

/-- Loading a non-empty, fully well-formed store succeeds silently:
one closing report, every row decoded in order. -/
lemma load_all_valid (rows : List (String × List ℕ)) (hne : rows ≠ [])
    (hv : ∀ r ∈ rows, r.2.length = 1024) :
    load_all_encodings_from_db true true rows
      = ([Msg.info], some (rows.map (fun r => (r.1, decodeChunks r.2)))) := by
  have hvalid_eq : rows.filterMap (fun r => (loadRow r).2)
      = rows.map (fun r => (r.1, decodeChunks r.2)) := by
    apply filterMap_all_some
    intro r hr
    rw [loadRow_valid r (hv r hr)]
  have hmsgs_eq : (rows.map (fun r => (loadRow r).1)).flatten = [] := by
    apply flatten_all_nil
    intro l hl
    rcases List.mem_map.mp hl with ⟨r, hr, rfl⟩
    rw [loadRow_valid r (hv r hr)]
  have hmapne : rows.map (fun r => (r.1, decodeChunks r.2)) ≠ [] := by
    intro h
    exact hne (List.map_eq_nil_iff.mp h)
  unfold load_all_encodings_from_db
  rw [if_neg (by simp), if_neg (by simp), if_neg hne, hvalid_eq, hmsgs_eq,
    if_neg hmapne, List.nil_append]

/-- Every message the load step emits is informational. -/
lemma load_msgs_kinds (d r : Bool) (rows : List (String × List ℕ)) :
    ∀ m ∈ (load_all_encodings_from_db d r rows).1,
      m = Msg.error ∨ m = Msg.note ∨ m = Msg.warn ∨ m = Msg.info := by
  intro m hm
  unfold load_all_encodings_from_db at hm
  have hrow : ∀ x ∈ (rows.map (fun q => (loadRow q).1)).flatten,
      x = Msg.warn := by
    intro x hx
    rcases List.mem_flatten.mp hx with ⟨l, hl, hxl⟩
    rcases List.mem_map.mp hl with ⟨q, _, rfl⟩
    rcases loadRow_fst q with h0 | h0
    · rw [h0] at hxl; cases hxl
    · rw [h0] at hxl
      simp at hxl
      exact hxl
  by_cases hd : d = false
  · rw [if_pos hd] at hm
    simp at hm
    rcases hm with rfl | rfl
    · exact Or.inl rfl
    · exact Or.inr (Or.inl rfl)
  · rw [if_neg hd] at hm
    by_cases hr2 : r = false
    · rw [if_pos hr2] at hm
      simp at hm
      subst hm
      exact Or.inl rfl
    · rw [if_neg hr2] at hm
      by_cases hrows : rows = []
      · rw [if_pos hrows] at hm
        simp at hm
        subst hm
        exact Or.inr (Or.inr (Or.inl rfl))
      · rw [if_neg hrows] at hm
        simp only [] at hm
        by_cases hval : rows.filterMap (fun q => (loadRow q).2) = []
        · rw [if_pos hval] at hm
          rcases List.mem_append.mp hm with hA | hB
          · exact Or.inr (Or.inr (Or.inl (hrow m hA)))
          · simp at hB
            subst hB
            exact Or.inl rfl
        · rw [if_neg hval] at hm
          rcases List.mem_append.mp hm with hA | hB
          · exact Or.inr (Or.inr (Or.inl (hrow m hA)))
          · simp at hB
            subst hB
            exact Or.inr (Or.inr (Or.inr rfl))

/-! ## Claim theorems -/

/-- Claim C10: decoding the blob produced by the indexer's encoding
function recovers the original 128-element vector of 64-bit values, and
the blob is exactly 128 × 8 bytes: `blob_to_np_array` is a left inverse
of `np_array_to_blob`. -/
theorem blob_roundtrip_c10 (arr : List ℕ) (hlen : arr.length = 128)
    (hbound : ∀ x ∈ arr, x < 2 ^ 64) :
    blob_to_np_array (np_array_to_blob arr) = some arr
      ∧ (np_array_to_blob arr).length = 1024 := by
  have hblen : (np_array_to_blob arr).length = 1024 := by
    rw [np_array_to_blob_length, hlen]
  refine ⟨?_, hblen⟩
  unfold blob_to_np_array
  rw [if_pos (by rw [hblen])]
  rw [decodeChunks_np_array_to_blob]
  congr 1
  have hmod : ∀ x ∈ arr, x % 2 ^ 64 = x :=
    fun x hx => Nat.mod_eq_of_lt (hbound x hx)
  calc arr.map (· % 2 ^ 64) = arr.map id := List.map_congr_left hmod
    _ = arr := List.map_id arr

set_option maxRecDepth 40000 in
/-- Witness for C10 at the concrete vector `0, 1, ..., 127`. -/
theorem blob_roundtrip_c10_witness :
    (List.range 128).length = 128
      ∧ (∀ x ∈ List.range 128, x < 2 ^ 64)
      ∧ (blob_to_np_array (np_array_to_blob (List.range 128))
            = some (List.range 128)
          ∧ (np_array_to_blob (List.range 128)).length = 1024) :=
  ⟨by decide, by decide,
    blob_roundtrip_c10 (List.range 128) (by decide) (by decide)⟩

/-- Claim C1: after the orchestrator applies a worker result for a
path, the rows stored for that path are exactly the rows of that result
(none of the old ones); on a failed transaction the rollback keeps
exactly the old ones.  Old and new rows never coexist. -/
theorem replace_atomic_c1 (s : Store) (p : String)
    (res : Option (List FaceData)) (dbError : Bool) :
    recordsFor p (applyStep s p res dbError)
      = if dbError then recordsFor p s else newRecords p res :=
  recordsFor_applyStep_self s p res dbError

/-- Claim C9: applying a worker result for one path leaves every other
path's rows unchanged, and applications for two distinct paths commute
on every path's stored rows. -/
theorem frame_commute_c9 (s : Store) (p₁ p₂ q : String)
    (r₁ r₂ : Option (List FaceData)) (e₁ e₂ : Bool) :
    (q ≠ p₁ → recordsFor q (applyStep s p₁ r₁ e₁) = recordsFor q s)
    ∧ (p₁ ≠ p₂ →
        recordsFor q (applyStep (applyStep s p₁ r₁ e₁) p₂ r₂ e₂)
          = recordsFor q (applyStep (applyStep s p₂ r₂ e₂) p₁ r₁ e₁)) := by
  constructor
  · exact fun h => recordsFor_applyStep_ne s p₁ q r₁ e₁ h
  · intro hne
    by_cases h1 : q = p₁
    · subst h1
      rw [recordsFor_applyStep_ne (applyStep s q r₁ e₁) p₂ q r₂ e₂ hne,
        recordsFor_applyStep_self s q r₁ e₁,
        recordsFor_applyStep_self (applyStep s p₂ r₂ e₂) q r₁ e₁,
        recordsFor_applyStep_ne s p₂ q r₂ e₂ hne]
    · by_cases h2 : q = p₂
      · subst h2
        rw [recordsFor_applyStep_self (applyStep s p₁ r₁ e₁) q r₂ e₂,
          recordsFor_applyStep_ne s p₁ q r₁ e₁ h1,
          recordsFor_applyStep_ne (applyStep s q r₂ e₂) p₁ q r₁ e₁ h1,
          recordsFor_applyStep_self s q r₂ e₂]
      · rw [recordsFor_applyStep_ne (applyStep s p₁ r₁ e₁) p₂ q r₂ e₂ h2,
          recordsFor_applyStep_ne s p₁ q r₁ e₁ h1,
          recordsFor_applyStep_ne (applyStep s p₂ r₂ e₂) p₁ q r₁ e₁ h1,
          recordsFor_applyStep_ne s p₂ q r₂ e₂ h2]

/-- Witness for C9 at distinct concrete paths. -/
theorem frame_commute_c9_witness :
    recordsFor "/a.jpg" (applyStep [] "/b.jpg" none false)
        = recordsFor "/a.jpg" ([] : Store)
    ∧ recordsFor "/a.jpg"
          (applyStep (applyStep [] "/b.jpg" none false) "/c.jpg" none false)
        = recordsFor "/a.jpg"
          (applyStep (applyStep [] "/c.jpg" none false) "/b.jpg" none false) :=
  ⟨(frame_commute_c9 [] "/b.jpg" "/c.jpg" "/a.jpg" none none false false).1
      (by decide),
   (frame_commute_c9 [] "/b.jpg" "/c.jpg" "/a.jpg" none none false false).2
      (by decide)⟩

/-- Claim C2: the non-forced filter loop includes a candidate exactly
when its stat succeeds and it is absent from the snapshot or strictly
newer; a failing stat is counted as a check-error and excluded; every
other candidate is counted as skipped. -/
theorem change_detection_c2 (snap stat : String → Option ℚ)
    (l : List String) :
    detectFilter snap stat l
      = (l.filter (includeDecision snap stat),
         l.countP (skipDecision snap stat),
         l.countP (fun p => (stat p).isNone))
    ∧ (∀ p, p ∈ (detectFilter snap stat l).1
        ↔ p ∈ l ∧ ∃ m, stat p = some m
            ∧ (snap p = none ∨ ∃ prev, snap p = some prev ∧ prev < m)) := by
  refine ⟨detectFilter_eq snap stat l, ?_⟩
  intro p
  rw [detectFilter_eq]
  simp only [List.mem_filter]
  exact and_congr_right (fun _ => includeDecision_eq_true snap stat p)

/-- Claim C4 as amended: the worker returns the input path unchanged;
its data component is `none` exactly when the stat fails, the image
fails to load, no face is detected, or no encoding is produced — so the
no-faces outcome and the failure outcomes share the value `none` — and
a `some` result always carries at least one face. -/
theorem worker_result_c4 (p : String) (env : ImageEnv) :
    (process_image p env).1 = p
    ∧ ((process_image p env).2 = none
        ↔ (env.statResult = none ∨ env.loadOk = false
            ∨ env.locations = [] ∨ env.encodings = []))
    ∧ (∀ faces, (process_image p env).2 = some faces → faces ≠ []) := by
  obtain ⟨st, lo, locs, encs⟩ := env
  rcases st with _ | lm
  · simp [process_image]
  · cases lo
    · simp [process_image]
    · rcases locs with _ | ⟨l0, locs⟩
      · simp [process_image]
      · rcases encs with _ | ⟨e0, encs⟩
        · simp [process_image]
        · simp [process_image]

/-- Counterexample to C4 as stated: a successfully loaded image with no
detected faces makes the worker return `(path, none)` — not an empty
list — which is the very value also returned for an unreadable image. -/
theorem worker_result_c4_counterexample :
    (process_image "/photos/a.jpg" ⟨some 1, true, [], []⟩).2 = none
    ∧ (process_image "/photos/a.jpg" ⟨some 1, false, [], []⟩).2 = none :=
  ⟨rfl, rfl⟩

/-- Claim C6: a search against a missing store reports an error and
aborts returning no list, while a search against an existing store with
zero rows succeeds with an empty result list and a completed terminal
event. -/
theorem store_missing_vs_empty_c6 (rows : List (String × List ℕ))
    (refLoadOk : Bool) (refEncs : List (List ℕ))
    (dist : List ℕ → List ℕ → ℚ) (tol : ℚ) :
    run_search true false true rows refLoadOk refEncs dist tol
      = ([Msg.info, Msg.info, Msg.info, Msg.error, Msg.note, Msg.aborted],
         none)
    ∧ run_search true true true [] refLoadOk refEncs dist tol
      = ([Msg.info, Msg.info, Msg.info, Msg.warn, Msg.warn, Msg.done],
         some []) :=
  ⟨rfl, rfl⟩

/-- Claim C7 as amended: when loading embeddings for a search, every
stored row whose blob does not decode to a 128-element embedding is
dropped individually with exactly one warning, and as long as at least
one row is valid the load succeeds (the search continues) with exactly
the valid rows; only a non-empty store whose rows are all invalid makes
the load fail. -/
theorem invalid_embedding_c7 (rows : List (String × List ℕ))
    (hv : ∃ r ∈ rows, ((loadRow r).2).isSome) :
    load_all_encodings_from_db true true rows
      = ((rows.map (fun r => (loadRow r).1)).flatten ++ [Msg.info],
         some (rows.filterMap (fun r => (loadRow r).2)))
    ∧ (∀ r, ((loadRow r).2 = none ↔ (loadRow r).1 = [Msg.warn])
        ∧ ((loadRow r).2 = none
            ↔ ¬∃ e, blob_to_np_array r.2 = some e ∧ e.length = 128)) := by
  constructor
  · rcases hv with ⟨r0, hr0, hsome⟩
    have hne : rows ≠ [] := by rintro rfl; cases hr0
    have hval : rows.filterMap (fun r => (loadRow r).2) ≠ [] := by
      intro h
      rw [List.filterMap_eq_nil_iff] at h
      rw [h r0 hr0] at hsome
      simp at hsome
    unfold load_all_encodings_from_db
    rw [if_neg (by simp), if_neg (by simp), if_neg hne, if_neg hval]
  · intro r
    exact ⟨loadRow_dropped_iff r, loadRow_dropped_iff_invalid r⟩

/-- Claim C3: for a fixed well-formed store, reference embedding and
tolerance, the search returns exactly the lexicographically sorted,
duplicate-free list of file paths having at least one stored embedding
at distance at most the tolerance from the reference embedding, and
emits one result event per path in that order followed by the
completion event (the earlier events being neither results nor
terminals). -/
theorem search_results_c3 (rows : List (String × List ℕ))
    (refEncs : List (List ℕ)) (dist : List ℕ → List ℕ → ℚ) (tol : ℚ)
    (hvalid : ∀ r ∈ rows, r.2.length = 1024) (href : refEncs ≠ []) :
    ∃ res ms,
      run_search true true true rows true refEncs dist tol
        = (ms ++ res.map Msg.result ++ [Msg.done], some res)
      ∧ res.Sorted pathLe ∧ res.Nodup
      ∧ (∀ p, p ∈ res
          ↔ ∃ b, (p, b) ∈ rows
              ∧ ∃ e, blob_to_np_array b = some e ∧ dist e refEncs.headI ≤ tol)
      ∧ (∀ m ∈ ms, isTerminal m = false ∧ ∀ q, m ≠ Msg.result q) := by
  by_cases hrows : rows = []
  · subst hrows
    refine ⟨[], [Msg.info, Msg.info, Msg.info, Msg.warn, Msg.warn],
      rfl, ?_, ?_, ?_, ?_⟩
    · simp
    · simp
    · intro p; simp
    · intro m hm
      simp only [List.mem_cons, List.not_mem_nil, or_false] at hm
      rcases hm with rfl | rfl | rfl | rfl | rfl <;>
        exact ⟨rfl, fun q h => by cases h⟩
  · have hload := load_all_valid rows hrows hvalid
    have hpairs_ne : rows.map (fun r => (r.1, decodeChunks r.2)) ≠ [] := by
      rw [Ne, List.map_eq_nil_iff]
      exact hrows
    have hmem_matching : ∀ p,
        p ∈ ((rows.map (fun r => (r.1, decodeChunks r.2))).filter
            (fun pr => decide (dist pr.2 refEncs.headI ≤ tol))).map Prod.fst
          ↔ ∃ b, (p, b) ∈ rows
              ∧ ∃ e, blob_to_np_array b = some e
                  ∧ dist e refEncs.headI ≤ tol := by
      intro p
      constructor
      · intro hp
        rcases List.mem_map.mp hp with ⟨pr, hpr, rfl⟩
        rcases List.mem_filter.mp hpr with ⟨hpairs, hdist⟩
        rcases List.mem_map.mp hpairs with ⟨r, hr, rfl⟩
        refine ⟨r.2, ?_, decodeChunks r.2, ?_, ?_⟩
        · simpa using hr
        · have h1024 : r.2.length = 1024 := hvalid r hr
          unfold blob_to_np_array
          rw [if_pos (by rw [h1024])]
        · simpa using hdist
      · rintro ⟨b, hb, e, he, hd⟩
        have h1024 : b.length = 1024 := hvalid (p, b) hb
        have he' : e = decodeChunks b := by
          unfold blob_to_np_array at he
          rw [if_pos (by rw [h1024])] at he
          exact (Option.some_inj.mp he).symm
        refine List.mem_map.mpr ⟨(p, decodeChunks b), ?_, rfl⟩
        refine List.mem_filter.mpr ⟨List.mem_map.mpr ⟨(p, b), hb, rfl⟩, ?_⟩
        simp only [decide_eq_true_eq]
        rw [← he']
        exact hd
    refine ⟨List.insertionSort pathLe
        (((rows.map (fun r => (r.1, decodeChunks r.2))).filter
          (fun pr => decide (dist pr.2 refEncs.headI ≤ tol))).map Prod.fst).dedup,
      [Msg.info, Msg.info, Msg.info, Msg.info, Msg.info,
        (if refEncs.length = 1 then Msg.info else Msg.warn),
        Msg.info, Msg.info, Msg.info], ?_, ?_, ?_, ?_, ?_⟩
    · unfold run_search
      rw [if_neg (by simp), hload]
      simp only []
      rw [if_neg hpairs_ne, if_neg (by simp), if_neg href]
      by_cases hsp : List.insertionSort pathLe
          (((rows.map (fun r => (r.1, decodeChunks r.2))).filter
            (fun pr => decide (dist pr.2 refEncs.headI ≤ tol))).map
              Prod.fst).dedup = []
      · rw [if_pos hsp, hsp]
        simp
      · rw [if_neg hsp]
        simp
    · exact List.sorted_insertionSort pathLe _
    · exact ((List.perm_insertionSort pathLe _).symm).nodup
        (List.nodup_dedup _)
    · intro p
      rw [(List.perm_insertionSort pathLe _).mem_iff, List.mem_dedup]
      exact hmem_matching p
    · intro m hm
      by_cases h1 : refEncs.length = 1
      · rw [if_pos h1] at hm
        simp only [List.mem_cons, List.not_mem_nil, or_false] at hm
        rcases hm with rfl | rfl | rfl | rfl | rfl | rfl | rfl | rfl | rfl <;>
          exact ⟨rfl, fun q h => by cases h⟩
      · rw [if_neg h1] at hm
        simp only [List.mem_cons, List.not_mem_nil, or_false] at hm
        rcases hm with rfl | rfl | rfl | rfl | rfl | rfl | rfl | rfl | rfl <;>
          exact ⟨rfl, fun q h => by cases h⟩

/-- Counterexample to C7 as stated: a store whose only row has an
8-byte blob (decoded length 1, not 128) makes the load fail and the
whole search abort — the invalid row is fatal, contradicting
"regardless of how many rows are invalid". -/
theorem invalid_embedding_c7_counterexample :
    (run_search true true true [("/photos/a.jpg", List.replicate 8 0)] true
        [[0]] (fun _ _ => 0) 1).2 = none
    ∧ Msg.aborted ∈ (run_search true true true
        [("/photos/a.jpg", List.replicate 8 0)] true [[0]]
        (fun _ _ => 0) 1).1 :=
  ⟨rfl, by decide⟩

set_option maxRecDepth 40000 in
/-- Witness for C7 at a store with one invalid and one valid row. -/
theorem invalid_embedding_c7_witness :
    (∃ r ∈ c7Rows, ((loadRow r).2).isSome)
    ∧ (load_all_encodings_from_db true true c7Rows
        = ((c7Rows.map (fun r => (loadRow r).1)).flatten ++ [Msg.info],
           some (c7Rows.filterMap (fun r => (loadRow r).2)))
      ∧ (∀ r, ((loadRow r).2 = none ↔ (loadRow r).1 = [Msg.warn])
          ∧ ((loadRow r).2 = none
              ↔ ¬∃ e, blob_to_np_array r.2 = some e ∧ e.length = 128))) :=
  ⟨by decide, invalid_embedding_c7 c7Rows (by decide)⟩

set_option maxRecDepth 40000 in
/-- Witness for C3 at a three-row store (two rows sharing one path), a
constant-zero distance and tolerance 1. -/
theorem search_results_c3_witness :
    (∀ r ∈ c3Rows, r.2.length = 1024)
    ∧ ([List.replicate 128 (0 : ℕ)] : List (List ℕ)) ≠ []
    ∧ (∃ res ms,
        run_search true true true c3Rows true [List.replicate 128 0]
            (fun _ _ => 0) 1
          = (ms ++ res.map Msg.result ++ [Msg.done], some res)
        ∧ res.Sorted pathLe ∧ res.Nodup
        ∧ (∀ p, p ∈ res
            ↔ ∃ b, (p, b) ∈ c3Rows
                ∧ ∃ e, blob_to_np_array b = some e ∧ (0 : ℚ) ≤ 1)
        ∧ (∀ m ∈ ms, isTerminal m = false ∧ ∀ q, m ≠ Msg.result q)) :=
  ⟨by decide, by decide,
    search_results_c3 c3Rows [List.replicate 128 0] (fun _ _ => 0) 1
      (by decide) (by decide)⟩

lemma terminalCount_result_map (sp : List String) :
    List.countP isTerminal (sp.map Msg.result) = 0 := by
  rw [List.countP_eq_zero]
  intro m hm
  rcases List.mem_map.mp hm with ⟨q, _, rfl⟩
  simp [isTerminal]

lemma terminalCount_resMsgs (sp : List String) :
    List.countP isTerminal
      (if sp = [] then [Msg.info] else Msg.info :: sp.map Msg.result)
      = 0 := by
  by_cases h : sp = []
  · simp [h, isTerminal]
  · rw [if_neg h, List.countP_cons, terminalCount_result_map]
    simp [isTerminal]

/-- Claim C8 as amended: every search run emits exactly one terminal
event, and so does every indexing run whose database setup succeeds; an
indexing run whose database setup fails exits with no terminal event at
all. -/
theorem terminal_events_c8 :
    (∀ (refExists dbExists dbReadOk : Bool)
        (rows : List (String × List ℕ)) (refLoadOk : Bool)
        (refEncs : List (List ℕ)) (dist : List ℕ → List ℕ → ℚ) (tol : ℚ),
      terminalCount (run_search refExists dbExists dbReadOk rows refLoadOk
          refEncs dist tol).1 = 1)
    ∧ (∀ (setupOk connOk poolOk poolExecOk : Bool) (s0 : Store)
        (candidates : List String) (stat : String → Option ℚ)
        (force : Bool) (w : String → Option (List FaceData))
        (dbErr : String → Bool),
      terminalCount (run_indexing setupOk connOk poolOk poolExecOk s0
          candidates stat force w dbErr).msgs
        = if setupOk = true then 1 else 0) := by
  constructor
  · intro refExists dbExists dbReadOk rows refLoadOk refEncs dist tol
    have hl0 : List.countP isTerminal
        (load_all_encodings_from_db dbExists dbReadOk rows).1 = 0 := by
      rw [List.countP_eq_zero]
      intro m hm
      rcases load_msgs_kinds dbExists dbReadOk rows m hm with
        rfl | rfl | rfl | rfl <;> simp [isTerminal]
    unfold run_search
    by_cases hre : refExists = false
    · rw [if_pos hre]
      rfl
    · rw [if_neg hre]
      simp only []
      rcases hl : (load_all_encodings_from_db dbExists dbReadOk rows).2 with
        _ | pairs
      · simp [terminalCount, List.countP_append, List.countP_cons,
          isTerminal, hl0]
      · simp only []
        by_cases hp : pairs = []
        · rw [if_pos hp]
          simp [terminalCount, List.countP_append, List.countP_cons,
            isTerminal, hl0]
        · rw [if_neg hp]
          by_cases hrl : refLoadOk = false
          · rw [if_pos hrl]
            simp [terminalCount, List.countP_append, List.countP_cons,
              isTerminal, hl0]
          · rw [if_neg hrl]
            by_cases hre2 : refEncs = []
            · rw [if_pos hre2]
              simp [terminalCount, List.countP_append, List.countP_cons,
                isTerminal, hl0]
            · rw [if_neg hre2]
              simp only []
              by_cases hlen : refEncs.length = 1
              · rw [if_pos hlen]
                simp [terminalCount, List.countP_append, List.countP_cons,
                  isTerminal, hl0, terminalCount_resMsgs]
              · rw [if_neg hlen]
                simp [terminalCount, List.countP_append, List.countP_cons,
                  isTerminal, hl0, terminalCount_resMsgs]
  · intro setupOk connOk poolOk poolExecOk s0 candidates stat force w dbErr
    by_cases hs : setupOk = false
    · subst hs
      have h0 : List.countP isTerminal (initMsgs force) = 0 :=
        terminalCount_initMsgs force
      simp [run_indexing, terminalCount, h0]
    · have hs' : setupOk = true := by
        cases setupOk
        · exact absurd rfl hs
        · rfl
      subst hs'
      rw [if_pos rfl]
      unfold run_indexing
      rw [if_neg (by simp)]
      exact terminalCount_runBody _ _ _ _ _ _ _ _ (terminalCount_preMsgs _ _)

/-- Counterexample to C8 as stated: an indexing run whose database
setup fails (`setup_database` calls `sys.exit(1)`, not caught by the
orchestrator's `except Exception`) emits zero terminal events, not
one. -/
theorem terminal_events_c8_counterexample :
    terminalCount (run_indexing false true true true [] []
        (fun _ => none) false (fun _ => none) (fun _ => false)).msgs = 0
    ∧ terminalCount (run_indexing false true true true [] []
        (fun _ => none) false (fun _ => none) (fun _ => false)).msgs ≠ 1 :=
  ⟨rfl, by decide⟩

/-- The include decision depends on the snapshot only at the candidate
itself. -/
lemma includeDecision_congr (snap snap' stat : String → Option ℚ)
    (p : String) (h : snap p = snap' p) :
    includeDecision snap stat p = includeDecision snap' stat p := by
  unfold includeDecision
  rw [h]

/-- Claim C5 as amended: when every candidate stats successfully and
its worker result carries at least one face stamped with that stat
time, a second run over the unchanged filesystem processes zero files
and leaves the store exactly as the first run left it.  (The
counterexample shows the restriction is needed: a zero-face file leaves
no row, so the snapshot cannot mark it as indexed.) -/
theorem idempotence_c5 (s0 : Store) (candidates : List String)
    (stat : String → Option ℚ) (w : String → Option (List FaceData))
    (hw : ∀ p ∈ candidates, ∃ m, stat p = some m
        ∧ ∃ faces, w p = some faces ∧ faces ≠ []
            ∧ ∀ d ∈ faces, d.last_modified = m) :
    (run_indexing true true true true
        (run_indexing true true true true s0 candidates stat false w
          (fun _ => false)).store
        candidates stat false w (fun _ => false)).toProcess = []
    ∧ (run_indexing true true true true
        (run_indexing true true true true s0 candidates stat false w
          (fun _ => false)).store
        candidates stat false w (fun _ => false)).store
      = (run_indexing true true true true s0 candidates stat false w
          (fun _ => false)).store := by
  set s1 := (run_indexing true true true true s0 candidates stat false w
    (fun _ => false)).store with hs1
  have hs1' : s1 = if (detectFilter (snapshotOf s0) stat candidates).1 = []
      then s0
      else applyAll w (fun _ => false) s0
        (detectFilter (snapshotOf s0) stat candidates).1 := by
    rw [hs1, run_indexing_eq_runBody, runBody_store]
  have key : ∀ p ∈ candidates,
      includeDecision (snapshotOf s1) stat p = false := by
    intro p hp
    obtain ⟨m, hm, faces, hwp, hfne, hall⟩ := hw p hp
    by_cases hin : includeDecision (snapshotOf s0) stat p = true
    · have hmem : p ∈ (detectFilter (snapshotOf s0) stat candidates).1 := by
        rw [detectFilter_eq]
        exact List.mem_filter.mpr ⟨hp, hin⟩
      have hne : (detectFilter (snapshotOf s0) stat candidates).1 ≠ [] :=
        List.ne_nil_of_mem hmem
      have hrec : recordsFor p s1 = newRecords p (w p) := by
        rw [hs1', if_neg hne]
        exact recordsFor_applyAll_mem w (fun _ => false) p rfl _ s0 hmem
      have hsnap : snapshotOf s1 p = some m := by
        apply snapshotOf_eq_of_uniform
        · rw [hrec, hwp]
          simp only [newRecords, Ne, List.map_eq_nil_iff]
          exact hfne
        · intro r hr
          rw [hrec, hwp] at hr
          rcases List.mem_map.mp hr with ⟨d, hd, rfl⟩
          exact hall d hd
      unfold includeDecision
      rw [hm, hsnap]
      simp
    · have hin' : includeDecision (snapshotOf s0) stat p = false := by
        cases h : includeDecision (snapshotOf s0) stat p
        · rfl
        · exact absurd h hin
      have hnmem : p ∉ (detectFilter (snapshotOf s0) stat candidates).1 := by
        rw [detectFilter_eq]
        intro hmem
        rw [(List.mem_filter.mp hmem).2] at hin'
        cases hin'
      have hrec : recordsFor p s1 = recordsFor p s0 := by
        by_cases hnil : (detectFilter (snapshotOf s0) stat candidates).1 = []
        · rw [hs1', if_pos hnil]
        · rw [hs1', if_neg hnil]
          exact recordsFor_applyAll_notMem w (fun _ => false) p _ s0 hnmem
      rw [includeDecision_congr (snapshotOf s1) (snapshotOf s0) stat p
        (snapshotOf_congr s1 s0 p hrec)]
      exact hin'
  have htri2 : (detectFilter (snapshotOf s1) stat candidates).1 = [] := by
    rw [detectFilter_eq]
    rw [List.filter_eq_nil_iff]
    intro p hp
    rw [key p hp]
    simp
  constructor
  · rw [run_indexing_eq_runBody, runBody_toProcess]
    exact htri2
  · rw [run_indexing_eq_runBody, runBody_store, if_pos htri2]

set_option maxRecDepth 40000 in
/-- Counterexample to C5 as stated: a directory with one image in which
no face is detected.  The first run stores no row for it, so the second
run over the unchanged filesystem still selects it for processing — one
file, not zero. -/
theorem idempotence_c5_counterexample :
    c5Run2.toProcess = ["/photos/a.jpg"] ∧ c5Run2.toProcess ≠ [] :=
  ⟨by decide, by decide⟩

/-- Witness for C5: a one-image filesystem whose worker finds one face
stamped with the stat time. -/
theorem idempotence_c5_witness :
    (∀ p ∈ ["/photos/a.jpg"], ∃ m, c5Stat p = some m
        ∧ ∃ faces, c5GoodWorker p = some faces ∧ faces ≠ []
            ∧ ∀ d ∈ faces, d.last_modified = m)
    ∧ ((run_indexing true true true true
          (run_indexing true true true true [] ["/photos/a.jpg"] c5Stat
            false c5GoodWorker (fun _ => false)).store
          ["/photos/a.jpg"] c5Stat false c5GoodWorker
          (fun _ => false)).toProcess = []
      ∧ (run_indexing true true true true
          (run_indexing true true true true [] ["/photos/a.jpg"] c5Stat
            false c5GoodWorker (fun _ => false)).store
          ["/photos/a.jpg"] c5Stat false c5GoodWorker
          (fun _ => false)).store
        = (run_indexing true true true true [] ["/photos/a.jpg"] c5Stat
            false c5GoodWorker (fun _ => false)).store) := by
  have hyp : ∀ p ∈ ["/photos/a.jpg"], ∃ m, c5Stat p = some m
      ∧ ∃ faces, c5GoodWorker p = some faces ∧ faces ≠ []
          ∧ ∀ d ∈ faces, d.last_modified = m := by
    intro p hp
    simp only [List.mem_singleton] at hp
    subst hp
    refine ⟨1, rfl, [⟨1, List.replicate 1024 0, "0,0,0,0"⟩], rfl, ?_, ?_⟩
    · exact List.cons_ne_nil _ _
    · intro d hd
      simp only [List.mem_singleton] at hd
      subst hd
      rfl
  exact ⟨hyp, idempotence_c5 [] ["/photos/a.jpg"] c5Stat c5GoodWorker hyp⟩
